import Mathlib

/-!
Verification of the context-retrieval and persona-memory core of the
OpenDigitalTwin repository: a shallow embedding, in Lean, of
`ResponseGenerator.find_relevant_context` and `_build_user_message`
(src/persona/generator.py), `PersonaAnalyzer.analyze_content`,
`_prepare_content` and `create_system_prompt` (src/persona/analyzer.py),
`Storage.add_content`, `save_persona_profile` and `get_persona_profile`
(src/extractor/storage.py), and `DigitalTwinMemory.get_conversation_context`,
`store_conversation_turn`, `add_content` and `search`
(src/memory/digital_twin_memory.py), together with theorems settling the
specification claims about them.
-/

set_option maxRecDepth 4000

namespace ODT

/-! ## Python string primitives used by the source -/

/-- Python's substring test `needle in hay` (`str.__contains__`). -/
def pyIn (needle hay : String) : Bool :=
  decide (needle.data <:+: hay.data)

/-- Python's `str.lower()`: every character lower-cased. -/
def pyToLower (s : String) : String :=
  String.mk (s.data.map Char.toLower)

/-- Helper of `pySplitWs`: walk the characters, collecting the current
piece in reverse in `acc`. -/
def splitWsAux : List Char → List Char → List String
  | [], acc => if acc.isEmpty then [] else [String.mk acc.reverse]
  | c :: cs, acc =>
    if c.isWhitespace then
      if acc.isEmpty then splitWsAux cs []
      else String.mk acc.reverse :: splitWsAux cs []
    else splitWsAux cs (c :: acc)

/-- Python's `str.split()` with no argument: split on runs of whitespace,
dropping empty pieces. -/
def pySplitWs (s : String) : List String :=
  splitWsAux s.data []

/-- Python's slice `s[:n]` on a string, taken over code points. -/
def pyTake (s : String) (n : Nat) : String :=
  String.mk (s.data.take n)

/-- Python's `str.capitalize()`: first character upper-cased, the rest
lower-cased. -/
def pyCapitalize (s : String) : String :=
  match s.data with
  | [] => ""
  | c :: cs => String.mk (c.toUpper :: cs.map Char.toLower)

/-- Python's negative-start slice `l[-k:]`: the last `k` elements for
`k ≥ 1`, but the whole list when `k = 0` (since `l[-0:]` is `l[0:]`). -/
def pyLastSlice (l : List α) (k : Nat) : List α :=
  if k = 0 then l else l.drop (l.length - k)

/-- Python's `dict.get(key, default)` over a string-valued dict
modelled as an association list. -/
def pyDictGetStr (d : List (String × String)) (key default : String) : String :=
  match d.lookup key with
  | some v => v
  | none => default

/-- Python's `dict.update`: values of existing keys replaced, new keys
appended after the existing ones. -/
def pyDictUpdate (d u : List (String × String)) : List (String × String) :=
  d.map (fun kv =>
    match u.lookup kv.1 with
    | some v => (kv.1, v)
    | none => kv) ++ u.filter (fun kv => (d.lookup kv.1).isNone)

/-- Python's f-string rendering of an `Optional[str]`: `None` prints as
the four characters `None`. -/
def pyStrOfOpt (o : Option String) : String := o.getD "None"

/-! ## Content rows as dicts (`Storage.get_all_content` rows and the
context items fed to the generator).  `content` and `title` are optional
because the source reads them with `dict.get` and a default. -/

/-- A content item as the generator receives it: a Python dict whose
`content` and `title` keys may be absent (`item.get('content', '')`,
`item.get('title', 'Untitled')`). -/
structure ContentItem where
  content : Option String
  title : Option String
  deriving Repr, DecidableEq

/-! ## `ResponseGenerator.find_relevant_context` (src/persona/generator.py) -/

/-- `set(query.lower().split())`: the distinct lower-cased
whitespace-separated terms of the query. -/
def queryKeywords (query : String) : List String :=
  (pySplitWs (pyToLower query)).dedup

/-- `sum(1 for kw in keywords if kw in content)` with
`content = item.get('content', '').lower()`: how many distinct query
terms occur as substrings of the item's lower-cased content. -/
def itemScore (keywords : List String) (item : ContentItem) : Nat :=
  keywords.countP (fun kw => pyIn kw (pyToLower (item.content.getD "")))

/-- One step of a stable descending insertion sort on score: the new pair
goes in front of the first element whose score is not larger.  This models
`scored_items.sort(reverse=True, key=lambda x: x[0])`, Python's stable
sort in descending score order. -/
def insertScoredDesc (x : Nat × α) : List (Nat × α) → List (Nat × α)
  | [] => [x]
  | y :: ys => if x.1 < y.1 then y :: insertScoredDesc x ys else x :: y :: ys

/-- Stable descending sort by score, the model of
`scored_items.sort(reverse=True, key=lambda x: x[0])`. -/
def sortScoredDesc : List (Nat × α) → List (Nat × α)
  | [] => []
  | x :: xs => insertScoredDesc x (sortScoredDesc xs)

/-- `ResponseGenerator.find_relevant_context(query, max_items=3)`:
score every stored item by distinct-keyword overlap, drop zero scores,
sort descending by score (stably), return the first `max_items` items. -/
def find_relevant_context (query : String) (all_content : List ContentItem)
    (max_items : Nat := 3) : List ContentItem :=
  if all_content.isEmpty then []
  else
    let keywords := queryKeywords query
    let scored_items :=
      (all_content.map (fun item => (itemScore keywords item, item))).filter
        (fun si => 0 < si.1)
    ((sortScoredDesc scored_items).take max_items).map (fun si => si.2)

/-! ### The reference result of claim C1, written from the spec's words:
documents grouped by score, groups in descending score order, each group
in listing order (ties kept in listing order: a stable sort with no
secondary key). -/

/-- Descending insertion of one score into a list of scores. -/
def insertNatDesc (a : Nat) : List Nat → List Nat
  | [] => [a]
  | b :: bs => if a < b then b :: insertNatDesc a bs else a :: b :: bs

/-- Descending sort of a list of scores. -/
def sortNatDesc : List Nat → List Nat
  | [] => []
  | a :: as => insertNatDesc a (sortNatDesc as)

/-- The distinct scores of a scored list, in descending order. -/
def distinctScoresDesc (l : List (Nat × α)) : List Nat :=
  sortNatDesc (l.map Prod.fst).dedup

/-- The spec's description of the sorted survivor list: for each distinct
score in descending order, the documents with that score in listing
order. -/
def stableDescSpec (l : List (Nat × α)) : List (Nat × α) :=
  (distinctScoresDesc l).flatMap (fun s => l.filter (fun x => x.1 = s))

/-- The reference result of the keyword selector as claim C1 states it:
score, drop zeros, stable descending order, first `k`. -/
def findRelevantReference (query : String) (docs : List ContentItem)
    (k : Nat) : List ContentItem :=
  let scored :=
    (docs.map (fun item => (itemScore (queryKeywords query) item, item))).filter
      (fun si => 0 < si.1)
  ((stableDescSpec scored).take k).map (fun si => si.2)

/-! ### The stable descending insertion sort agrees with the spec's
group-by-descending-score description. -/

theorem mem_insertNatDesc {a b : Nat} {l : List Nat} :
    b ∈ insertNatDesc a l ↔ b = a ∨ b ∈ l := by
  induction l with
  | nil => simp [insertNatDesc]
  | cons c cs ih =>
    by_cases h : a < c
    · simp [insertNatDesc, h, ih]
      tauto
    · simp [insertNatDesc, h]

theorem mem_sortNatDesc {a : Nat} {l : List Nat} :
    a ∈ sortNatDesc l ↔ a ∈ l := by
  induction l with
  | nil => simp [sortNatDesc]
  | cons b bs ih => simp [sortNatDesc, mem_insertNatDesc, ih]

theorem pairwise_insertNatDesc {a : Nat} {l : List Nat}
    (h : l.Pairwise (fun x y => y ≤ x)) :
    (insertNatDesc a l).Pairwise (fun x y => y ≤ x) := by
  induction l with
  | nil => simp [insertNatDesc]
  | cons b bs ih =>
    rcases List.pairwise_cons.mp h with ⟨hb, hbs⟩
    by_cases hab : a < b
    · rw [insertNatDesc, if_pos hab]
      refine List.pairwise_cons.mpr ⟨?_, ih hbs⟩
      intro y hy
      rcases mem_insertNatDesc.mp hy with rfl | hy
      · exact Nat.le_of_lt hab
      · exact hb y hy
    · rw [insertNatDesc, if_neg hab]
      refine List.pairwise_cons.mpr ⟨?_, h⟩
      intro y hy
      rcases List.mem_cons.mp hy with rfl | hy
      · exact Nat.le_of_not_lt hab
      · exact Nat.le_trans (hb y hy) (Nat.le_of_not_lt hab)

theorem pairwise_sortNatDesc (l : List Nat) :
    (sortNatDesc l).Pairwise (fun x y => y ≤ x) := by
  induction l with
  | nil => simp [sortNatDesc]
  | cons b bs ih => exact pairwise_insertNatDesc ih

theorem nodup_insertNatDesc {a : Nat} {l : List Nat}
    (ha : a ∉ l) (h : l.Nodup) : (insertNatDesc a l).Nodup := by
  induction l with
  | nil => simp [insertNatDesc]
  | cons b bs ih =>
    rcases List.nodup_cons.mp h with ⟨hb, hbs⟩
    by_cases hab : a < b
    · rw [insertNatDesc, if_pos hab]
      refine List.nodup_cons.mpr ⟨?_, ih (fun hm => ha (List.mem_cons_of_mem _ hm)) hbs⟩
      intro hm
      rcases mem_insertNatDesc.mp hm with rfl | hm
      · exact ha (List.mem_cons_self _ _)
      · exact hb hm
    · rw [insertNatDesc, if_neg hab]
      exact List.nodup_cons.mpr ⟨ha, h⟩

theorem nodup_sortNatDesc {l : List Nat} (h : l.Nodup) :
    (sortNatDesc l).Nodup := by
  induction l with
  | nil => simp [sortNatDesc]
  | cons b bs ih =>
    rcases List.nodup_cons.mp h with ⟨hb, hbs⟩
    exact nodup_insertNatDesc (fun hm => hb (mem_sortNatDesc.mp hm)) (ih hbs)

theorem pairwise_lt_distinctScoresDesc (l : List (Nat × α)) :
    (distinctScoresDesc l).Pairwise (fun x y => y < x) := by
  have h1 := pairwise_sortNatDesc (l.map Prod.fst).dedup
  have h2 : (sortNatDesc (l.map Prod.fst).dedup).Nodup :=
    nodup_sortNatDesc (List.nodup_dedup _)
  have h3 := List.Pairwise.and h1 h2
  exact h3.imp (fun hab => Nat.lt_of_le_of_ne hab.1 (fun he => hab.2 he.symm))

theorem mem_distinctScoresDesc {s : Nat} {l : List (Nat × α)} :
    s ∈ distinctScoresDesc l ↔ s ∈ l.map Prod.fst := by
  rw [distinctScoresDesc, mem_sortNatDesc, List.mem_dedup]

theorem insertScoredDesc_eq_cons {x : Nat × α} {t : List (Nat × α)}
    (h : ∀ y ∈ t, y.1 ≤ x.1) : insertScoredDesc x t = x :: t := by
  cases t with
  | nil => rfl
  | cons y ys =>
    rw [insertScoredDesc, if_neg]
    exact Nat.not_lt.mpr (h y (List.mem_cons_self _ _))

theorem insertScoredDesc_append {x : Nat × α} {A t : List (Nat × α)}
    (h : ∀ y ∈ A, x.1 < y.1) :
    insertScoredDesc x (A ++ t) = A ++ insertScoredDesc x t := by
  induction A with
  | nil => rfl
  | cons y ys ih =>
    rw [List.cons_append, insertScoredDesc,
      if_pos (h y (List.mem_cons_self _ _)), List.cons_append,
      ih (fun z hz => h z (List.mem_cons_of_mem _ hz))]

theorem flatMap_congr_mem {l : List β} {f g : β → List γ}
    (h : ∀ a ∈ l, f a = g a) : l.flatMap f = l.flatMap g := by
  induction l with
  | nil => rfl
  | cons a as ih =>
    rw [List.flatMap_cons, List.flatMap_cons, h a (List.mem_cons_self _ _),
      ih (fun b hb => h b (List.mem_cons_of_mem _ hb))]

theorem insertScoredDesc_flatMap_mem {x : Nat × α} {g : Nat → List (Nat × α)}
    (hg : ∀ s, ∀ y ∈ g s, y.1 = s) :
    ∀ {scores : List Nat}, scores.Pairwise (fun a b => b < a) → x.1 ∈ scores →
    insertScoredDesc x (scores.flatMap g) =
      scores.flatMap (fun s => if x.1 = s then x :: g s else g s) := by
  intro scores
  induction scores with
  | nil => intro _ hm; exact absurd hm (List.not_mem_nil _)
  | cons s ss ih =>
    intro hp hm
    rcases List.pairwise_cons.mp hp with ⟨hs, hss⟩
    rw [List.flatMap_cons, List.flatMap_cons]
    rcases List.mem_cons.mp hm with he | hm
    · rw [if_pos he]
      have hall : ∀ y ∈ g s ++ ss.flatMap g, y.1 ≤ x.1 := by
        intro y hy
        rcases List.mem_append.mp hy with hy | hy
        · rw [hg s y hy, he]
        · rcases List.mem_flatMap.mp hy with ⟨t, ht, hyt⟩
          rw [hg t y hyt, he]
          exact Nat.le_of_lt (hs t ht)
      rw [insertScoredDesc_eq_cons hall, List.cons_append]
      have hcong : ss.flatMap (fun t => if x.1 = t then x :: g t else g t) =
          ss.flatMap g := by
        refine flatMap_congr_mem (fun t ht => ?_)
        rw [if_neg]
        rw [he]
        exact Nat.ne_of_gt (hs t ht)
      rw [hcong]
    · have hxs : x.1 < s := hs x.1 hm
      rw [if_neg (Nat.ne_of_lt hxs)]
      have hgt : ∀ y ∈ g s, x.1 < y.1 := by
        intro y hy; rw [hg s y hy]; exact hxs
      rw [insertScoredDesc_append hgt, ih hss hm]

theorem insertScoredDesc_flatMap_not_mem {x : Nat × α} {g : Nat → List (Nat × α)}
    (hg : ∀ s, ∀ y ∈ g s, y.1 = s) (hx : g x.1 = []) :
    ∀ {scores : List Nat}, scores.Pairwise (fun a b => b < a) → x.1 ∉ scores →
    insertScoredDesc x (scores.flatMap g) =
      (insertNatDesc x.1 scores).flatMap (fun s => if x.1 = s then x :: g s else g s) := by
  intro scores
  induction scores with
  | nil =>
    intro _ _
    simp [insertNatDesc, insertScoredDesc, hx]
  | cons s ss ih =>
    intro hp hm
    rcases List.pairwise_cons.mp hp with ⟨hs, hss⟩
    have hne : x.1 ≠ s := fun he => hm (he ▸ List.mem_cons_self _ _)
    rw [List.flatMap_cons]
    by_cases hlt : x.1 < s
    · rw [insertNatDesc, if_pos hlt, List.flatMap_cons, if_neg hne]
      have hgt : ∀ y ∈ g s, x.1 < y.1 := by
        intro y hy; rw [hg s y hy]; exact hlt
      rw [insertScoredDesc_append hgt,
        ih hss (fun hm2 => hm (List.mem_cons_of_mem _ hm2))]
    · have hsx : s < x.1 := Nat.lt_of_le_of_ne (Nat.le_of_not_lt hlt) hne.symm
      rw [insertNatDesc, if_neg hlt, List.flatMap_cons, if_pos rfl, hx,
        List.flatMap_cons, if_neg hne]
      have hall : ∀ y ∈ g s ++ ss.flatMap g, y.1 ≤ x.1 := by
        intro y hy
        rcases List.mem_append.mp hy with hy | hy
        · rw [hg s y hy]; exact Nat.le_of_lt hsx
        · rcases List.mem_flatMap.mp hy with ⟨t, ht, hyt⟩
          rw [hg t y hyt]
          exact Nat.le_of_lt (Nat.lt_trans (hs t ht) hsx)
      rw [insertScoredDesc_eq_cons hall]
      have hcong : ss.flatMap (fun t => if x.1 = t then x :: g t else g t) =
          ss.flatMap g := by
        refine flatMap_congr_mem (fun t ht => ?_)
        rw [if_neg]
        intro he
        exact hm (List.mem_cons_of_mem _ (he ▸ ht))
      rw [hcong]
      rfl

/-- The stable descending insertion sort equals the spec's
group-by-descending-distinct-score arrangement. -/
theorem sortScoredDesc_eq_stableDescSpec (l : List (Nat × α)) :
    sortScoredDesc l = stableDescSpec l := by
  induction l with
  | nil => rfl
  | cons x xs ih =>
    rw [sortScoredDesc, ih]
    have hg : ∀ s : Nat, ∀ y ∈ xs.filter (fun z => z.1 = s), y.1 = s := by
      intro s y hy
      exact of_decide_eq_true (List.mem_filter.mp hy).2
    have hgroup : ∀ s : Nat,
        (x :: xs).filter (fun z => z.1 = s) =
          if x.1 = s then x :: xs.filter (fun z => z.1 = s)
          else xs.filter (fun z => z.1 = s) := by
      intro s
      rw [List.filter_cons]
      by_cases he : x.1 = s
      · rw [if_pos (decide_eq_true he), if_pos he]
      · rw [if_neg (by simpa using he), if_neg he]
    by_cases hm : x.1 ∈ xs.map Prod.fst
    · have h1 : distinctScoresDesc (x :: xs) = distinctScoresDesc xs := by
        rw [distinctScoresDesc, distinctScoresDesc, List.map_cons,
          List.dedup_cons_of_mem hm]
      rw [stableDescSpec, stableDescSpec, h1]
      rw [insertScoredDesc_flatMap_mem hg (pairwise_lt_distinctScoresDesc xs)
        (mem_distinctScoresDesc.mpr hm)]
      exact flatMap_congr_mem (fun s _ => (hgroup s).symm)
    · have h1 : distinctScoresDesc (x :: xs) =
          insertNatDesc x.1 (distinctScoresDesc xs) := by
        rw [distinctScoresDesc, distinctScoresDesc, List.map_cons,
          List.dedup_cons_of_not_mem hm, sortNatDesc]
      have hemp : xs.filter (fun z => z.1 = x.1) = [] := by
        rw [List.filter_eq_nil_iff]
        intro z hz hzx
        exact hm (List.mem_map.mpr ⟨z, hz, of_decide_eq_true hzx⟩)
      rw [stableDescSpec, stableDescSpec, h1]
      rw [insertScoredDesc_flatMap_not_mem hg hemp
        (pairwise_lt_distinctScoresDesc xs)
        (fun hm2 => hm (mem_distinctScoresDesc.mp hm2))]
      exact flatMap_congr_mem (fun s _ => (hgroup s).symm)

theorem find_relevant_context_eq_reference (query : String)
    (docs : List ContentItem) (k : Nat) :
    find_relevant_context query docs k = findRelevantReference query docs k := by
  by_cases h : docs.isEmpty
  · rw [List.isEmpty_iff.mp h]
    simp [find_relevant_context, findRelevantReference, stableDescSpec,
      distinctScoresDesc, sortNatDesc]
  · simp only [find_relevant_context, findRelevantReference, if_neg h]
    rw [sortScoredDesc_eq_stableDescSpec]

/-- C1: for every query and stored document list, `find_relevant_context`
returns exactly the reference result: items scored by the number of
distinct lower-cased whitespace-split query terms occurring as substrings
of the item's lower-cased content, zero scores dropped, the rest in
descending score order with ties kept in listing order (stable, no
secondary key), and the first `max_items` (default 3) returned. -/
theorem find_relevant_context_matches_reference (query : String)
    (docs : List ContentItem) (k : Nat) :
    find_relevant_context query docs k = findRelevantReference query docs k
    ∧ find_relevant_context query docs = findRelevantReference query docs 3 :=
  ⟨find_relevant_context_eq_reference query docs k,
   find_relevant_context_eq_reference query docs 3⟩

/-- C6: the keyword selector is total on its edge cases: a query with no
whitespace-separated terms yields the empty result, an empty store yields
the empty result, and an item with a missing `content` key scores exactly
as one whose content is the empty string. -/
theorem find_relevant_context_edge_cases (q : String) (docs : List ContentItem)
    (k : Nat) (title : Option String) :
    (pySplitWs (pyToLower q) = [] → find_relevant_context q docs k = [])
    ∧ find_relevant_context q [] k = []
    ∧ itemScore (queryKeywords q) ⟨none, title⟩ =
        itemScore (queryKeywords q) ⟨some "", title⟩ := by
  refine ⟨?_, ?_, rfl⟩
  · intro h
    have hk : queryKeywords q = [] := by rw [queryKeywords, h]; rfl
    rw [find_relevant_context]
    by_cases hd : docs.isEmpty
    · rw [if_pos hd]
    · rw [if_neg hd]
      have hfil :
          (docs.map (fun item => (itemScore (queryKeywords q) item, item))).filter
            (fun si => 0 < si.1) = [] := by
        rw [List.filter_eq_nil_iff]
        intro si hsi
        rcases List.mem_map.mp hsi with ⟨item, _, rfl⟩
        simp [itemScore, hk]
      simp only [find_relevant_context, if_neg hd, hfil]
      simp [sortScoredDesc]
  · rfl

/-- Witness for C6 at a whitespace-only query and a one-item store. -/
theorem find_relevant_context_edge_cases_witness :
    pySplitWs (pyToLower " ") = [] ∧
      find_relevant_context " " [⟨some "abc", none⟩] 3 = [] :=
  ⟨by decide,
   (find_relevant_context_edge_cases " " [⟨some "abc", none⟩] 3 none).1 (by decide)⟩

/-! ## `Storage` (src/extractor/storage.py): the SQLite tables `content`
and `persona_profile` modelled as lists of rows with auto-increment ids. -/

/-- A row of the `content` table. -/
structure ContentRow where
  id : Nat
  source : String
  source_type : String
  content : String
  metadata : Option String
  deriving Repr, DecidableEq

/-- A row of the `persona_profile` table. -/
structure ProfileRow where
  id : Nat
  name : String
  analysis : String
  deriving Repr, DecidableEq

/-- The storage state: both tables and their auto-increment counters. -/
structure StorageState where
  content_rows : List ContentRow
  content_next_id : Nat
  profile_rows : List ProfileRow
  profile_next_id : Nat
  deriving Repr, DecidableEq

/-- A freshly created database: both tables empty, ids starting at 1. -/
def emptyStorage : StorageState :=
  { content_rows := [], content_next_id := 1, profile_rows := [], profile_next_id := 1 }

/-- `Storage.add_content(source, source_type, content, metadata)`: INSERT
the row unconditionally (the column constraint is only NOT NULL, which the
empty string satisfies) and return `cursor.lastrowid`. -/
def add_content (st : StorageState) (source source_type content : String)
    (metadata : Option String) : StorageState × Nat :=
  ({ st with
      content_rows := st.content_rows ++
        [{ id := st.content_next_id, source := source, source_type := source_type,
           content := content, metadata := metadata }],
      content_next_id := st.content_next_id + 1 },
   st.content_next_id)

/-- `Storage.save_persona_profile(name, analysis)`: if a row with the name
exists, UPDATE the analysis of every row with that name, else INSERT a new
row. -/
def save_persona_profile (st : StorageState) (name analysis : String) :
    StorageState :=
  match st.profile_rows.find? (fun r => r.name = name) with
  | some _ =>
    { st with profile_rows := st.profile_rows.map (fun r =>
        if r.name = name then { r with analysis := analysis } else r) }
  | none =>
    { st with
        profile_rows := st.profile_rows ++
          [{ id := st.profile_next_id, name := name, analysis := analysis }],
        profile_next_id := st.profile_next_id + 1 }

/-- `Storage.get_persona_profile(name)`: the first row with the name, or
`None`. -/
def get_persona_profile (st : StorageState) (name : String) :
    Option ProfileRow :=
  st.profile_rows.find? (fun r => r.name = name)

/-- C2 counterexample: `add_content` with empty content does not fail and
does insert a row — on an empty store it inserts the row with empty content
and returns id 1, contradicting the claimed `ValidationError`. -/
theorem add_content_empty_no_validation :
    (add_content emptyStorage "s" "web" "" none).1.content_rows =
      [{ id := 1, source := "s", source_type := "web", content := "",
         metadata := none }] ∧
    (add_content emptyStorage "s" "web" "" none).2 = 1 := by
  constructor <;> rfl

/-- C2 amended: `add_content` performs no validation at all: for every
content string, the empty string included, it appends exactly one row
holding that content and returns the newly assigned identifier, which is
then stepped. -/
theorem add_content_always_inserts (st : StorageState)
    (source source_type content : String) (metadata : Option String) :
    (add_content st source source_type content metadata).1.content_rows =
      st.content_rows ++
        [{ id := st.content_next_id, source := source, source_type := source_type,
           content := content, metadata := metadata }] ∧
    (add_content st source source_type content metadata).2 = st.content_next_id ∧
    (add_content st source source_type content metadata).1.content_next_id =
      st.content_next_id + 1 := by
  exact ⟨rfl, rfl, rfl⟩

theorem countP_profile_update (l : List ProfileRow) (name p n : String) :
    (l.map (fun r =>
        if r.name = name then { r with analysis := p } else r)).countP
      (fun r => r.name = n) = l.countP (fun r => r.name = n) := by
  rw [List.countP_map]
  refine List.countP_congr (fun r _ => ?_)
  by_cases h : r.name = name <;> simp [Function.comp, h]

theorem countP_saved_name (st : StorageState) (name p : String)
    (hinv : st.profile_rows.countP (fun r => r.name = name) ≤ 1) :
    (save_persona_profile st name p).profile_rows.countP
      (fun r => r.name = name) = 1 := by
  rw [save_persona_profile]
  cases hfind : st.profile_rows.find? (fun r => r.name = name) with
  | some r =>
    simp only
    rw [countP_profile_update]
    refine Nat.le_antisymm hinv ?_
    have hrmem := List.mem_of_find?_eq_some hfind
    have hrp := List.find?_some hfind
    exact List.countP_pos_iff.mpr ⟨r, hrmem, hrp⟩
  | none =>
    simp only
    rw [List.countP_append]
    have h0 : st.profile_rows.countP (fun r => r.name = name) = 0 := by
      rw [List.countP_eq_zero]
      exact List.find?_eq_none.mp hfind
    rw [h0]
    simp

/-- C9: starting from a store with at most one profile row per name,
`save_persona_profile` preserves that invariant; saving `p1` then `p2`
under one name leaves exactly one row for that name, whose analysis is
`p2`; and `get_persona_profile` on an absent name is the `none` sentinel,
not a failure. -/
theorem persona_profile_upsert (st : StorageState) (name p1 p2 : String)
    (hinv : ∀ n, st.profile_rows.countP (fun r => r.name = n) ≤ 1) :
    (∀ n, (save_persona_profile st name p1).profile_rows.countP
        (fun r => r.name = n) ≤ 1)
    ∧ (save_persona_profile (save_persona_profile st name p1)
        name p2).profile_rows.countP (fun r => r.name = name) = 1
    ∧ (∀ r ∈ (save_persona_profile (save_persona_profile st name p1)
          name p2).profile_rows, r.name = name → r.analysis = p2)
    ∧ (get_persona_profile st name = none ↔
        ∀ r ∈ st.profile_rows, r.name ≠ name) := by
  have hpres : ∀ n, (save_persona_profile st name p1).profile_rows.countP
      (fun r => r.name = n) ≤ 1 := by
    intro n
    rw [save_persona_profile]
    cases hfind : st.profile_rows.find? (fun r => r.name = name) with
    | some r =>
      simp only
      rw [countP_profile_update]
      exact hinv n
    | none =>
      simp only
      rw [List.countP_append]
      by_cases hn : name = n
      · subst hn
        have h0 : st.profile_rows.countP (fun r => r.name = name) = 0 := by
          rw [List.countP_eq_zero]
          exact List.find?_eq_none.mp hfind
        rw [h0]
        simp
      · have h1 : List.countP (fun r => decide (r.name = n))
            [(⟨st.profile_next_id, name, p1⟩ : ProfileRow)] = 0 := by
          simp [hn]
        rw [h1]
        simpa using hinv n
  refine ⟨hpres, ?_, ?_, ?_⟩
  · exact countP_saved_name _ name p2 (Nat.le_of_eq
      (countP_saved_name st name p1 (hinv name)))
  · set st1 := save_persona_profile st name p1 with hst1
    have hone : st1.profile_rows.countP (fun r => r.name = name) = 1 :=
      countP_saved_name st name p1 (hinv name)
    have hsome : (st1.profile_rows.find? (fun r => r.name = name)).isSome := by
      rw [List.find?_isSome]
      exact List.countP_pos_iff.mp (hone ▸ Nat.zero_lt_one)
    rcases Option.isSome_iff_exists.mp hsome with ⟨r0, hr0⟩
    intro r hr hname
    rw [save_persona_profile, hr0] at hr
    simp only at hr
    rcases List.mem_map.mp hr with ⟨r1, _, rfl⟩
    by_cases h1 : r1.name = name
    · rw [if_pos h1]
    · rw [if_neg h1] at hname ⊢
      exact absurd hname h1
  · rw [get_persona_profile, List.find?_eq_none]
    constructor
    · intro h r hr
      simpa using h r hr
    · intro h r hr
      simpa using h r hr

/-- Witness for C9: on the empty store, saving `a` then `b` under the name
`x` leaves exactly one row for `x`. -/
theorem persona_profile_upsert_witness :
    (save_persona_profile (save_persona_profile emptyStorage "x" "a")
      "x" "b").profile_rows.countP (fun r => r.name = "x") = 1 :=
  (persona_profile_upsert emptyStorage "x" "a" "b"
    (fun n => by simp [emptyStorage])).2.1

/-! ## `DigitalTwinMemory` (src/memory/digital_twin_memory.py).  The
external A-MEM backend (`AgenticMemorySystem.add_note` and
`search_agentic`) is a parameter: a write-success flag and a search
function that may fail, so the source's try/except handling can be
stated.  Notes written through `add_note` are tracked in the state. -/

/-- A search hit as a Python dict: `mem.get("content", "")` and
`mem.get("metadata", {}).get("source", "unknown")` read optional keys. -/
structure MemoryNote where
  content : Option String
  source : Option String
  deriving Repr, DecidableEq

/-- A note stored long-term through `memory_system.add_note`. -/
structure LTRecord where
  content : String
  metadata : List (String × String)
  deriving Repr, DecidableEq

/-- The A-MEM backend as the memory layer sees it: whether `add_note`
succeeds, and what `search_agentic` returns (or raises). -/
structure Backend where
  write_ok : Bool
  search_result : String → Nat → Except String (List MemoryNote)

/-- One conversation turn dict: `query` is present only when the call
passed a truthy query (`if query: turn["query"] = query`). -/
structure Turn where
  role : String
  content : String
  timestamp : String
  query : Option String
  deriving Repr, DecidableEq

/-- The `DigitalTwinMemory` state: the enabled flag, whether
`memory_system` is set, the in-memory conversation history, and the notes
written to the long-term store. -/
structure DTMemory where
  persona_name : String
  use_memory : Bool
  has_system : Bool
  conversation_history : List Turn
  long_term : List LTRecord
  deriving Repr, DecidableEq

/-- Python's `a or default` on an optional string: `None` and the empty
string are falsy. -/
def pyOrStr (o : Option String) (default : String) : String :=
  match o with
  | some s => if s = "" then default else s
  | none => default

/-- `DigitalTwinMemory.add_content`: no-op returning `None` when memory is
off or the system absent; otherwise build the metadata and call
`add_note`, catching any backend error and returning `None` in that
case. -/
def memAddContent (B : Backend) (st : DTMemory) (content : String)
    (source : Option String) (content_type : String)
    (metadata : Option (List (String × String))) (now : String) :
    DTMemory × Option String :=
  if st.use_memory ∧ st.has_system then
    if B.write_ok then
      let md := pyDictUpdate (metadata.getD [])
        [("source", pyOrStr source "unknown"), ("content_type", content_type),
         ("persona", st.persona_name), ("timestamp", now)]
      ({ st with long_term := st.long_term ++ [⟨content, md⟩] },
       some (toString st.long_term.length))
    else (st, none)
  else (st, none)

/-- `DigitalTwinMemory.search`: empty when memory is off or the system
absent; otherwise `search_agentic`, with any backend error caught and
turned into the empty result. -/
def memSearch (B : Backend) (st : DTMemory) (query : String) (k : Nat) :
    List MemoryNote :=
  if st.use_memory ∧ st.has_system then
    match B.search_result query k with
    | Except.ok rs => rs
    | Except.error _ => []
  else []

/-- One line of the recent-conversation block:
`f"**{role.capitalize()}**: {content}"`. -/
def formatTurnLine (t : Turn) : String :=
  "**" ++ pyCapitalize t.role ++ "**: " ++ t.content

/-- The numbered memory lines:
`f"{i}. {content}\n   (Source: {source})"` for `enumerate(memories, 1)`. -/
def formatMemoryLines (ms : List MemoryNote) : List String :=
  ms.enum.map (fun p =>
    toString (p.1 + 1) ++ ". " ++ (p.2.content.getD "") ++
      "\n   (Source: " ++ (p.2.source.getD "unknown") ++ ")")

/-- `DigitalTwinMemory.get_conversation_context(query, max_turns=5,
max_memories=3)`: the recent-conversation block from
`conversation_history[-max_turns:]`, then the memory block when memory is
enabled, `max_memories > 0` and the search returns hits, joined by blank
lines. -/
def get_conversation_context (B : Backend) (st : DTMemory) (query : String)
    (max_turns : Nat := 5) (max_memories : Nat := 3) : String :=
  let parts1 : List String :=
    if st.conversation_history.isEmpty then []
    else "## Recent Conversation" ::
      (pyLastSlice st.conversation_history max_turns).map formatTurnLine
  let parts2 : List String :=
    if st.use_memory ∧ 0 < max_memories then
      let memories := memSearch B st query max_memories
      if memories.isEmpty then []
      else "\n## Relevant Context from Memory" :: formatMemoryLines memories
    else []
  String.intercalate "\n\n" (parts1 ++ parts2)

/-- The turn dict `store_conversation_turn` appends. -/
def mkTurn (role content : String) (query : Option String) (now : String) :
    Turn :=
  { role := role, content := content, timestamp := now,
    query :=
      match query with
      | some q => if q = "" then none else some q
      | none => none }

/-- `DigitalTwinMemory.store_conversation_turn(role, content, query)`:
append the turn unconditionally, then, when memory is enabled and the role
is `assistant`, store `f"Q: {query}\nA: {content}"` long-term. -/
def store_conversation_turn (B : Backend) (st : DTMemory)
    (role content : String) (query : Option String) (now : String) :
    DTMemory :=
  let st1 := { st with conversation_history :=
    st.conversation_history ++ [mkTurn role content query now] }
  if st1.use_memory ∧ role = "assistant" then
    (memAddContent B st1 ("Q: " ++ pyStrOfOpt query ++ "\nA: " ++ content)
      none "conversation"
      (some [("conversation_turn", toString st1.conversation_history.length),
             ("query", pyStrOfOpt query)]) now).1
  else st1

/-! ### Claim C3: the shape of `get_conversation_context`'s result. -/

/-- The last `k` turns of the sequence, as the spec's words say. -/
def specRecentTurns (l : List Turn) (k : Nat) : List Turn :=
  l.drop (l.length - k)

/-- The context as claim C3 describes it: a "Recent Conversation" block
holding exactly the last `max_turns` turns in original order (present only
when turns exist), then the memory block (present only when recall is on,
requested and non-empty), blank-line separated; empty string when both are
absent. -/
def specConversationContext (B : Backend) (st : DTMemory) (query : String)
    (max_turns max_memories : Nat) : String :=
  let recentBlock : List String :=
    if st.conversation_history.isEmpty then []
    else "## Recent Conversation" ::
      (specRecentTurns st.conversation_history max_turns).map formatTurnLine
  let memBlock : List String :=
    if st.use_memory ∧ 0 < max_memories ∧
        ¬(memSearch B st query max_memories).isEmpty then
      "\n## Relevant Context from Memory" ::
        formatMemoryLines (memSearch B st query max_memories)
    else []
  String.intercalate "\n\n" (recentBlock ++ memBlock)

/-- A backend that succeeds and finds nothing. -/
def okBackend : Backend :=
  { write_ok := true, search_result := fun _ _ => Except.ok [] }

/-- A backend whose search and write both fail. -/
def failBackend : Backend :=
  { write_ok := false, search_result := fun _ _ => Except.error "backend down" }

/-- A memory with recall disabled holding one user turn. -/
def memOffOneTurn : DTMemory :=
  { persona_name := "p", use_memory := false, has_system := false,
    conversation_history := [⟨"user", "hi", "t0", none⟩], long_term := [] }

/-- An enabled, empty memory. -/
def memOn : DTMemory :=
  { persona_name := "p", use_memory := true, has_system := true,
    conversation_history := [], long_term := [] }

/-- C3 counterexample: at `max_turns = 0` with one stored turn the code
renders the whole history (Python's `[-0:]` is the full list), so the
block does not contain exactly the last 0 turns, and the result differs
from the claim's reading. -/
theorem get_conversation_context_zero_turns :
    get_conversation_context okBackend memOffOneTurn "q" 0 3 =
      "## Recent Conversation\n\n**User**: hi"
    ∧ specRecentTurns memOffOneTurn.conversation_history 0 = []
    ∧ get_conversation_context okBackend memOffOneTurn "q" 0 3 ≠
        specConversationContext okBackend memOffOneTurn "q" 0 3 := by
  refine ⟨by decide, rfl, by decide⟩

/-- C3 amended: for every `maxTurns ≥ 1` the result is exactly the
claim's fixed-order rendering — recent block with the last `maxTurns`
turns in original order when turns exist, then the memory block when
recall is enabled and yields results — and when both blocks are absent
the result is the empty string, not an error.  (At `maxTurns = 0` the
code instead renders the entire history.) -/
theorem get_conversation_context_spec (B : Backend) (st : DTMemory)
    (q : String) (mt mm : Nat) (h : 1 ≤ mt) :
    get_conversation_context B st q mt mm =
      specConversationContext B st q mt mm
    ∧ (st.conversation_history = [] →
        (st.use_memory = false ∨ mm = 0 ∨ memSearch B st q mm = []) →
        get_conversation_context B st q mt mm = "") := by
  have hslice : pyLastSlice st.conversation_history mt =
      specRecentTurns st.conversation_history mt := by
    rw [pyLastSlice, specRecentTurns, if_neg (Nat.pos_iff_ne_zero.mp h)]
  constructor
  · rw [get_conversation_context, specConversationContext, hslice]
    congr 1
    congr 1
    by_cases h1 : st.use_memory ∧ 0 < mm
    · rw [if_pos h1]
      by_cases h2 : (memSearch B st q mm).isEmpty
      · rw [if_pos h2, if_neg]
        intro hc
        exact hc.2.2 h2
      · rw [if_neg h2, if_pos ⟨h1.1, h1.2, h2⟩]
    · rw [if_neg h1, if_neg]
      intro hc
      exact h1 ⟨hc.1, hc.2.1⟩
  · intro hhist hoff
    rw [get_conversation_context]
    have h1 : st.conversation_history.isEmpty := by
      rw [hhist]; rfl
    rw [if_pos h1]
    have h2 : (if st.use_memory ∧ 0 < mm then
        (if (memSearch B st q mm).isEmpty then []
         else "\n## Relevant Context from Memory" ::
           formatMemoryLines (memSearch B st q mm))
        else []) = ([] : List String) := by
      rcases hoff with hu | hm | hs
      · rw [if_neg]; intro hc; rw [hu] at hc; exact Bool.false_ne_true hc.1
      · rw [if_neg]; intro hc; rw [hm] at hc; exact Nat.lt_irrefl 0 hc.2
      · by_cases hc : st.use_memory ∧ 0 < mm
        · rw [if_pos hc, if_pos]; rw [hs]; rfl
        · rw [if_neg hc]
    rw [h2]
    rfl

/-- Witness for C3 at `maxTurns = 5` on an enabled empty memory: the
rendering matches the claim's reading and is the empty string. -/
theorem get_conversation_context_spec_witness :
    get_conversation_context okBackend memOn "hello" 5 3 =
      specConversationContext okBackend memOn "hello" 5 3 ∧
    get_conversation_context okBackend memOn "hello" 5 3 = "" :=
  ⟨(get_conversation_context_spec okBackend memOn "hello" 5 3
      (by decide)).1,
   (get_conversation_context_spec okBackend memOn "hello" 5 3
      (by decide)).2 rfl (Or.inr (Or.inr rfl))⟩

/-! ### Claims C4 and C7: `store_conversation_turn` and failure
degradation. -/

/-- C4: for every role, content and optional query (backend writes
succeeding), `store_conversation_turn` appends exactly the new turn at the
end, leaving earlier turns unchanged, and writes one long-term record
pairing the query with the content exactly when long-term recall is
enabled (memory on and system present) and the role is `assistant`. -/
theorem store_conversation_turn_appends (B : Backend) (st : DTMemory)
    (role content : String) (query : Option String) (now : String)
    (hB : B.write_ok = true) :
    (store_conversation_turn B st role content query now).conversation_history =
      st.conversation_history ++ [mkTurn role content query now]
    ∧ (st.use_memory = true → st.has_system = true → role = "assistant" →
        ∃ r, (store_conversation_turn B st role content query now).long_term =
            st.long_term ++ [r] ∧
          r.content = "Q: " ++ pyStrOfOpt query ++ "\nA: " ++ content)
    ∧ (st.use_memory = false ∨ st.has_system = false ∨ role ≠ "assistant" →
        (store_conversation_turn B st role content query now).long_term =
          st.long_term) := by
  refine ⟨?_, ?_, ?_⟩
  · rw [store_conversation_turn]
    by_cases hg : st.use_memory = true ∧ role = "assistant"
    · rw [if_pos hg, memAddContent]
      by_cases hsys : st.use_memory ∧ st.has_system
      · rw [if_pos hsys, if_pos hB]
      · rw [if_neg hsys]
    · rw [if_neg hg]
  · intro hu hsys hr
    rw [store_conversation_turn, if_pos ⟨hu, hr⟩, memAddContent,
      if_pos ⟨hu, hsys⟩, if_pos hB]
    exact ⟨_, rfl, rfl⟩
  · intro hor
    rw [store_conversation_turn]
    by_cases hg : st.use_memory = true ∧ role = "assistant"
    · rw [if_pos hg, memAddContent]
      have hnsys : ¬(st.use_memory ∧ st.has_system) := by
        rcases hor with hu | hs | hr
        · intro hc; rw [hu] at hc; exact Bool.false_ne_true hc.1
        · intro hc; rw [hs] at hc; exact Bool.false_ne_true hc.2
        · exact absurd hg.2 hr
      rw [if_neg hnsys]
    · rw [if_neg hg]

/-- Witness for C4: an assistant turn on the enabled empty memory is
appended and one paired record is written. -/
theorem store_conversation_turn_appends_witness :
    (store_conversation_turn okBackend memOn "assistant" "hello there"
        (some "hi") "t1").conversation_history =
      memOn.conversation_history ++
        [mkTurn "assistant" "hello there" (some "hi") "t1"] ∧
    ∃ r, (store_conversation_turn okBackend memOn "assistant" "hello there"
        (some "hi") "t1").long_term = memOn.long_term ++ [r] ∧
      r.content = "Q: " ++ pyStrOfOpt (some "hi") ++ "\nA: " ++ "hello there" :=
  ⟨(store_conversation_turn_appends okBackend memOn "assistant" "hello there"
      (some "hi") "t1" rfl).1,
   (store_conversation_turn_appends okBackend memOn "assistant" "hello there"
      (some "hi") "t1" rfl).2.1 rfl rfl rfl⟩

/-- The recent-window-only context: what `get_conversation_context`
renders when the memory block is absent. -/
def recentOnlyContext (st : DTMemory) (max_turns : Nat) : String :=
  String.intercalate "\n\n"
    (if st.conversation_history.isEmpty then []
     else "## Recent Conversation" ::
       (pyLastSlice st.conversation_history max_turns).map formatTurnLine)

/-- C7: when the backend's search raises, `get_conversation_context`
still returns the recent-window-only context, and when the backend's
write raises, `store_conversation_turn` still appends the turn and leaves
the long-term store unchanged; neither operation propagates the backend
error (the embedded operations catch it and return normally). -/
theorem memory_backend_failure_degrades (B : Backend) (st : DTMemory)
    (q : String) (mt mm : Nat) (role content : String)
    (query : Option String) (now e : String)
    (hs : B.search_result q mm = Except.error e)
    (hw : B.write_ok = false) :
    get_conversation_context B st q mt mm = recentOnlyContext st mt
    ∧ (store_conversation_turn B st role content query now).conversation_history =
        st.conversation_history ++ [mkTurn role content query now]
    ∧ (store_conversation_turn B st role content query now).long_term =
        st.long_term := by
  have hsearch : memSearch B st q mm = [] := by
    rw [memSearch]
    by_cases hc : st.use_memory ∧ st.has_system
    · rw [if_pos hc, hs]
    · rw [if_neg hc]
  refine ⟨?_, ?_, ?_⟩
  · rw [get_conversation_context, recentOnlyContext]
    have h2 : (if st.use_memory ∧ 0 < mm then
        (if (memSearch B st q mm).isEmpty then []
         else "\n## Relevant Context from Memory" ::
           formatMemoryLines (memSearch B st q mm))
        else []) = ([] : List String) := by
      by_cases hc : st.use_memory ∧ 0 < mm
      · rw [if_pos hc, if_pos]; rw [hsearch]; rfl
      · rw [if_neg hc]
    rw [h2, List.append_nil]
  · rw [store_conversation_turn]
    by_cases hg : st.use_memory = true ∧ role = "assistant"
    · rw [if_pos hg, memAddContent]
      by_cases hsys : st.use_memory ∧ st.has_system
      · rw [if_pos hsys, if_neg (by rw [hw]; exact Bool.false_ne_true)]
      · rw [if_neg hsys]
    · rw [if_neg hg]
  · rw [store_conversation_turn]
    by_cases hg : st.use_memory = true ∧ role = "assistant"
    · rw [if_pos hg, memAddContent]
      by_cases hsys : st.use_memory ∧ st.has_system
      · rw [if_pos hsys, if_neg (by rw [hw]; exact Bool.false_ne_true)]
      · rw [if_neg hsys]
    · rw [if_neg hg]

/-- Witness for C7: with the failing backend, an enabled memory holding
one turn still renders the recent window and still appends an assistant
turn without any long-term write. -/
theorem memory_backend_failure_degrades_witness :
    get_conversation_context failBackend
        { memOn with conversation_history := [⟨"user", "hi", "t0", none⟩] }
        "hi" 5 3 =
      recentOnlyContext
        { memOn with conversation_history := [⟨"user", "hi", "t0", none⟩] } 5 ∧
    (store_conversation_turn failBackend
        { memOn with conversation_history := [⟨"user", "hi", "t0", none⟩] }
        "assistant" "yo" (some "hi") "t1").long_term =
      ({ memOn with conversation_history :=
          [⟨"user", "hi", "t0", none⟩] } : DTMemory).long_term :=
  ⟨(memory_backend_failure_degrades failBackend
      { memOn with conversation_history := [⟨"user", "hi", "t0", none⟩] }
      "hi" 5 3 "assistant" "yo" (some "hi") "t1" "backend down"
      rfl rfl).1,
   (memory_backend_failure_degrades failBackend
      { memOn with conversation_history := [⟨"user", "hi", "t0", none⟩] }
      "hi" 5 3 "assistant" "yo" (some "hi") "t1" "backend down"
      rfl rfl).2.2⟩

/-! ## `PersonaAnalyzer` (src/persona/analyzer.py).  The LLM client's
`analyze_text(text, prompt)` is a function parameter (the claims hold
whenever the analysis calls succeed). -/

/-- The loop of `_prepare_content`: keep non-empty contents, tracking the
total content length, and stop right after the total first exceeds the
cap (`if total_length > max_length: break` runs after the append). -/
def prepareTexts (max_length : Nat) : List ContentItem → Nat → List String
  | [], _ => []
  | item :: rest, total =>
    let content := item.content.getD ""
    if content = "" then prepareTexts max_length rest total
    else
      if max_length < total + content.length then [content]
      else content :: prepareTexts max_length rest (total + content.length)

/-- `PersonaAnalyzer._prepare_content(content_items, max_length=50000)`:
join the kept contents with the separator and hard-slice to the cap. -/
def prepare_content (content_items : List ContentItem)
    (max_length : Nat := 50000) : String :=
  pyTake (String.intercalate "\n\n---\n\n" (prepareTexts max_length content_items 0))
    max_length

/-- The prompt of `_analyze_writing_style`. -/
def writingStylePrompt : String :=
  "Analyze the writing style of the following text. Focus on:\n1. Tone (formal, conversational, technical, etc.)\n2. Sentence structure (short/long, simple/complex)\n3. Vocabulary level and word choice\n4. Common phrases or expressions\n5. Use of data, evidence, or examples\n\nProvide a concise summary (3-5 sentences) of the writing style."

/-- The prompt of `_analyze_communication_patterns`. -/
def communicationPatternsPrompt : String :=
  "Analyze the communication patterns in the following text. Focus on:\n1. How ideas are structured and presented\n2. Use of analogies, metaphors, or examples\n3. Level of directness vs. diplomatic language\n4. Emphasis on certain topics or themes\n5. How uncertainty or confidence is expressed\n\nProvide a concise summary (3-5 sentences) of the communication patterns."

/-- The prompt of `_analyze_topics`. -/
def topicsPrompt : String :=
  "Identify and analyze the key topics and themes in the following text. Focus on:\n1. Main topics frequently discussed\n2. Recurring themes or concerns\n3. Areas of expertise or focus\n4. How different topics are connected\n\nProvide a concise summary (3-5 sentences) of the main topics and themes."

/-- The prompt of `_analyze_decision_style`. -/
def decisionStylePrompt : String :=
  "Analyze the decision-making approach in the following text. Focus on:\n1. How decisions are framed and justified\n2. Use of data vs. judgment\n3. Consideration of risks and uncertainties\n4. Balance between different factors or stakeholders\n5. Communication of decisions and rationale\n\nProvide a concise summary (3-5 sentences) of the decision-making style."

/-- The persona profile dict `analyze_content` assembles. -/
structure PersonaProfile where
  writing_style : String
  communication_patterns : String
  topics_themes : String
  decision_style : String
  content_count : Nat
  deriving Repr, DecidableEq

/-- `PersonaAnalyzer.analyze_content(content_items)`: combine the corpus,
run the four analyses on a 15,000-character slice of it, and record the
number of input items as `content_count`. -/
def analyze_content (analyze_text : String → String → String)
    (content_items : List ContentItem) : PersonaProfile :=
  let combined_text := prepare_content content_items
  { writing_style := analyze_text (pyTake combined_text 15000) writingStylePrompt,
    communication_patterns :=
      analyze_text (pyTake combined_text 15000) communicationPatternsPrompt,
    topics_themes := analyze_text (pyTake combined_text 15000) topicsPrompt,
    decision_style := analyze_text (pyTake combined_text 15000) decisionStylePrompt,
    content_count := content_items.length }

theorem pyTake_length_le (s : String) (n : Nat) : (pyTake s n).length ≤ n := by
  rw [pyTake, String.length_mk, List.length_take]
  exact Nat.min_le_left n s.data.length

/-- C5: for every input list the combined text respects the 50,000
character cap (the final hard slice enforces it), the preparation and
analysis are total (they never fail on oversized input when the analysis
calls succeed), and `content_count` is the number of input documents, not
the number kept after truncation. -/
theorem analyze_content_cap_and_count (analyze_text : String → String → String)
    (items : List ContentItem) :
    (prepare_content items).length ≤ 50000
    ∧ (analyze_content analyze_text items).content_count = items.length :=
  ⟨pyTake_length_le _ _, rfl⟩

/-! ## `PersonaAnalyzer.create_system_prompt`: the persona dict is an
association list read with `persona.get(key, 'Not available')`. -/

/-- The opening of the system prompt, up to the first section header. -/
def cspHead (n : String) : String :=
  "You are a digital twin of " ++ n ++
    ". Your goal is to respond and make decisions in the same style and manner as "
    ++ n ++ ".\n\n"

/-- The close of the system prompt, after the last section body. -/
def cspTail (n : String) : String :=
  "\n\nWhen responding:\n- Maintain " ++ n ++
    "'s tone, style, and communication patterns\n- Use similar language, phrases, and vocabulary\n- Consider topics and themes in the same way "
    ++ n ++
    " would\n- Apply the same decision-making approach\n- Be authentic to "
    ++ n ++
    "'s perspective and reasoning\n\nBase your responses on the patterns observed in "
    ++ n ++ "'s actual communications and writings."

/-- `PersonaAnalyzer.create_system_prompt(persona, person_name)`: the
f-string template with the four `persona.get(..., 'Not available')`
section bodies. -/
def create_system_prompt (persona : List (String × String))
    (person_name : String := "this person") : String :=
  cspHead person_name ++
    "**Writing Style:**\n" ++
    pyDictGetStr persona "writing_style" "Not available" ++ "\n\n" ++
    "**Communication Patterns:**\n" ++
    pyDictGetStr persona "communication_patterns" "Not available" ++ "\n\n" ++
    "**Key Topics and Themes:**\n" ++
    pyDictGetStr persona "topics_themes" "Not available" ++ "\n\n" ++
    "**Decision-Making Approach:**\n" ++
    pyDictGetStr persona "decision_style" "Not available" ++
    cspTail person_name

theorem pyIn_join (A b R x : String) (h : A ++ b ++ R = x) :
    pyIn b x = true := by
  rw [pyIn, decide_eq_true_eq]
  refine ⟨A.data, R.data, ?_⟩
  rw [← h]
  simp [String.data_append]

theorem str_append_assoc (a b c : String) : a ++ b ++ c = a ++ (b ++ c) := by
  apply String.ext
  simp [String.data_append]

/-- C10: `create_system_prompt` is total on dicts with missing analysis
fields: a missing field renders as the literal placeholder
`Not available` under its section header, and a present field renders
verbatim under its header. -/
theorem create_system_prompt_missing_fields (persona : List (String × String))
    (n : String) :
    (persona.lookup "writing_style" = none →
      pyIn ("**Writing Style:**\n" ++ "Not available")
        (create_system_prompt persona n) = true)
    ∧ (∀ v, persona.lookup "writing_style" = some v →
      pyIn ("**Writing Style:**\n" ++ v)
        (create_system_prompt persona n) = true)
    ∧ (persona.lookup "communication_patterns" = none →
      pyIn ("**Communication Patterns:**\n" ++ "Not available")
        (create_system_prompt persona n) = true)
    ∧ (∀ v, persona.lookup "communication_patterns" = some v →
      pyIn ("**Communication Patterns:**\n" ++ v)
        (create_system_prompt persona n) = true)
    ∧ (persona.lookup "topics_themes" = none →
      pyIn ("**Key Topics and Themes:**\n" ++ "Not available")
        (create_system_prompt persona n) = true)
    ∧ (∀ v, persona.lookup "topics_themes" = some v →
      pyIn ("**Key Topics and Themes:**\n" ++ v)
        (create_system_prompt persona n) = true)
    ∧ (persona.lookup "decision_style" = none →
      pyIn ("**Decision-Making Approach:**\n" ++ "Not available")
        (create_system_prompt persona n) = true)
    ∧ (∀ v, persona.lookup "decision_style" = some v →
      pyIn ("**Decision-Making Approach:**\n" ++ v)
        (create_system_prompt persona n) = true) := by
  have hws : ∀ v, pyDictGetStr persona "writing_style" "Not available" = v →
      pyIn ("**Writing Style:**\n" ++ v) (create_system_prompt persona n) = true := by
    intro v hv
    refine pyIn_join (cspHead n) _
      ("\n\n" ++ "**Communication Patterns:**\n" ++
        pyDictGetStr persona "communication_patterns" "Not available" ++ "\n\n" ++
        "**Key Topics and Themes:**\n" ++
        pyDictGetStr persona "topics_themes" "Not available" ++ "\n\n" ++
        "**Decision-Making Approach:**\n" ++
        pyDictGetStr persona "decision_style" "Not available" ++ cspTail n) _ ?_
    simp only [create_system_prompt, hv, str_append_assoc]
  have hcp : ∀ v, pyDictGetStr persona "communication_patterns" "Not available" = v →
      pyIn ("**Communication Patterns:**\n" ++ v)
        (create_system_prompt persona n) = true := by
    intro v hv
    refine pyIn_join
      (cspHead n ++ "**Writing Style:**\n" ++
        pyDictGetStr persona "writing_style" "Not available" ++ "\n\n") _
      ("\n\n" ++ "**Key Topics and Themes:**\n" ++
        pyDictGetStr persona "topics_themes" "Not available" ++ "\n\n" ++
        "**Decision-Making Approach:**\n" ++
        pyDictGetStr persona "decision_style" "Not available" ++ cspTail n) _ ?_
    simp only [create_system_prompt, hv, str_append_assoc]
  have htt : ∀ v, pyDictGetStr persona "topics_themes" "Not available" = v →
      pyIn ("**Key Topics and Themes:**\n" ++ v)
        (create_system_prompt persona n) = true := by
    intro v hv
    refine pyIn_join
      (cspHead n ++ "**Writing Style:**\n" ++
        pyDictGetStr persona "writing_style" "Not available" ++ "\n\n" ++
        "**Communication Patterns:**\n" ++
        pyDictGetStr persona "communication_patterns" "Not available" ++ "\n\n") _
      ("\n\n" ++ "**Decision-Making Approach:**\n" ++
        pyDictGetStr persona "decision_style" "Not available" ++ cspTail n) _ ?_
    simp only [create_system_prompt, hv, str_append_assoc]
  have hds : ∀ v, pyDictGetStr persona "decision_style" "Not available" = v →
      pyIn ("**Decision-Making Approach:**\n" ++ v)
        (create_system_prompt persona n) = true := by
    intro v hv
    refine pyIn_join
      (cspHead n ++ "**Writing Style:**\n" ++
        pyDictGetStr persona "writing_style" "Not available" ++ "\n\n" ++
        "**Communication Patterns:**\n" ++
        pyDictGetStr persona "communication_patterns" "Not available" ++ "\n\n" ++
        "**Key Topics and Themes:**\n" ++
        pyDictGetStr persona "topics_themes" "Not available" ++ "\n\n") _
      (cspTail n) _ ?_
    simp only [create_system_prompt, hv, str_append_assoc]
  refine ⟨?_, ?_, ?_, ?_, ?_, ?_, ?_, ?_⟩
  · intro h; exact hws _ (by rw [pyDictGetStr, h])
  · intro v h; exact hws v (by rw [pyDictGetStr, h])
  · intro h; exact hcp _ (by rw [pyDictGetStr, h])
  · intro v h; exact hcp v (by rw [pyDictGetStr, h])
  · intro h; exact htt _ (by rw [pyDictGetStr, h])
  · intro v h; exact htt v (by rw [pyDictGetStr, h])
  · intro h; exact hds _ (by rw [pyDictGetStr, h])
  · intro v h; exact hds v (by rw [pyDictGetStr, h])

/-- Witness for C10: the empty dict misses `writing_style` and renders the
placeholder; a dict carrying `writing_style` renders its value verbatim. -/
theorem create_system_prompt_missing_fields_witness :
    ([] : List (String × String)).lookup "writing_style" = none
    ∧ pyIn ("**Writing Style:**\n" ++ "Not available")
        (create_system_prompt [] "X") = true
    ∧ [("writing_style", "terse")].lookup "writing_style" = some "terse"
    ∧ pyIn ("**Writing Style:**\n" ++ "terse")
        (create_system_prompt [("writing_style", "terse")] "X") = true :=
  ⟨rfl, (create_system_prompt_missing_fields [] "X").1 rfl, rfl,
   (create_system_prompt_missing_fields [("writing_style", "terse")] "X").2.1
     "terse" rfl⟩

/-! ## `ResponseGenerator._build_user_message` (src/persona/generator.py) -/

/-- `_build_user_message(query, context)`: the raw query when the context
is `None` or empty (`if not context`), else up to three labeled reference
excerpts, each content sliced to 1,000 characters, then the query. -/
def build_user_message (query : String) (context : Option (List ContentItem)) :
    String :=
  match context with
  | none => query
  | some [] => query
  | some l =>
    let context_parts := (l.take 3).enum.map (fun p =>
      "**Reference " ++ toString (p.1 + 1) ++ ": " ++ (p.2.title.getD "Untitled")
        ++ "**\n" ++ pyTake (p.2.content.getD "") 1000)
    let context_text := String.intercalate "\n\n" context_parts
    "Use the following references from past communications to inform your response:\n\n"
      ++ context_text ++ "\n\n---\n\nNow, respond to the following:\n\n" ++ query

/-- C8: `_build_user_message` returns the raw query unchanged for an
absent or empty context; for a non-empty context it renders at most 3
reference excerpts, each limited to the first 1,000 characters of the
item's content and labeled with its 1-based index and title, and the
message ends with the literal query. -/
theorem build_user_message_spec (q : String) (l : List ContentItem) :
    build_user_message q none = q
    ∧ build_user_message q (some []) = q
    ∧ (l ≠ [] →
        (∃ pre, build_user_message q (some l) = pre ++ q)
        ∧ (l.take 3).length ≤ 3
        ∧ (∀ p ∈ (l.take 3).enum,
            (pyTake (p.2.content.getD "") 1000).length ≤ 1000)
        ∧ build_user_message q (some l) =
            "Use the following references from past communications to inform your response:\n\n"
              ++ String.intercalate "\n\n" ((l.take 3).enum.map (fun p =>
                  "**Reference " ++ toString (p.1 + 1) ++ ": " ++
                    (p.2.title.getD "Untitled") ++ "**\n" ++
                    pyTake (p.2.content.getD "") 1000))
              ++ "\n\n---\n\nNow, respond to the following:\n\n" ++ q) := by
  refine ⟨rfl, rfl, ?_⟩
  intro hne
  cases l with
  | nil => exact absurd rfl hne
  | cons x xs =>
    refine ⟨⟨_, rfl⟩, ?_, ?_, rfl⟩
    · rw [List.length_take]
      exact Nat.min_le_left _ _
    · intro p _
      exact pyTake_length_le _ _

/-- Witness for C8 at a one-item context: the message ends with the
query. -/
theorem build_user_message_spec_witness :
    ∃ pre, build_user_message "who are you"
        (some [⟨some "long content", some "Doc"⟩]) = pre ++ "who are you" :=
  ((build_user_message_spec "who are you" [⟨some "long content", some "Doc"⟩]).2.2
    (by decide)).1

end ODT
